import Mathlib

/-!
Verification of the pagination / retry / batch-accounting core of the
atlas-mgmt-examples scripts.

The definitions below are shallow embeddings, translated from the Python
sources:
  - src/cleanup_aged_projects_and_clusters.py   (get_all_paginated_items)
  - src/invite_users_to_organization.py         (make_atlas_api_request,
                                                 get_existing_org_users,
                                                 validate_email,
                                                 invite_users_to_org)
  - src/provision_projects_for_users.py         (AtlasAPI._make_request,
                                                 AtlasOwnershipTracker)

HTTP servers are modelled as functions from page number (resp. attempt
number, resp. email) to the observable outcome of the corresponding
request; parsed JSON bodies are modelled by the Json type below, with the
relevant Python operations (truthiness, membership, indexing, iteration,
dict.get) given their Python semantics, raising paths returning Except
errors.  time.sleep calls are recorded as data (lists of wait durations)
rather than performed.
-/

/-- A parsed JSON value, as returned by response.json() in the sources.
Numbers are modelled as integers (the scripts only ever compare status /
error codes). -/
inductive Json where
  | null
  | bool (b : Bool)
  | num (n : Int)
  | str (s : String)
  | arr (xs : List Json)
  | obj (kvs : List (String × Json))

namespace Json

mutual

/-- Structural boolean equality, used to model the Python == occurring in
the sources (comparison of a rel value against the string "next", and
list membership checks).  The scripts only ever compare against string
constants, where structural equality and Python equality agree. -/
def beq : Json → Json → Bool
  | .null, .null => true
  | .bool a, .bool b => a == b
  | .num a, .num b => a == b
  | .str a, .str b => a == b
  | .arr xs, .arr ys => beqList xs ys
  | .obj xs, .obj ys => beqObj xs ys
  | _, _ => false

/-- Pointwise equality of JSON arrays. -/
def beqList : List Json → List Json → Bool
  | [], [] => true
  | x :: xs, y :: ys => beq x y && beqList xs ys
  | _, _ => false

/-- Pointwise equality of JSON objects (entry order sensitive; the sources
never compare two objects, see beq). -/
def beqObj : List (String × Json) → List (String × Json) → Bool
  | [], [] => true
  | (k, v) :: xs, (l, w) :: ys => k == l && beq v w && beqObj xs ys
  | _, _ => false

end

instance : BEq Json := ⟨beq⟩

/-- Python truthiness of a JSON value: None, False, 0, empty string, empty
list and empty dict are falsy, everything else truthy. -/
def truthy : Json → Bool
  | .null => false
  | .bool b => b
  | .num n => n != 0
  | .str s => s != ""
  | .arr xs => !xs.isEmpty
  | .obj kvs => !kvs.isEmpty

/-- Substring test, the semantics of the Python expression key in s for
strings. -/
def strContains (hay needle : String) : Bool :=
  (List.range (hay.length + 1)).any fun i => needle.isPrefixOf (hay.drop i)

/-- Python key in data: key lookup for dicts, element membership for
lists, substring for strings, TypeError otherwise. -/
def containsKey (data : Json) (key : String) : Except String Bool :=
  match data with
  | .obj kvs => .ok (kvs.any fun kv => kv.1 == key)
  | .arr xs => .ok (xs.any fun x => x == Json.str key)
  | .str s => .ok (strContains s key)
  | _ => .error "TypeError: argument is not iterable"

/-- Python data[key]: dict indexing (KeyError when absent); indexing a
list or string with a string key is a TypeError. -/
def index (data : Json) (key : String) : Except String Json :=
  match data with
  | .obj kvs =>
    match kvs.lookup key with
    | some v => .ok v
    | none => .error "KeyError"
  | _ => .error "TypeError: indices must be integers"

/-- Python iteration (as used by list.extend and for loops): a list yields
its elements, a string its characters, a dict its keys; other values are
not iterable. -/
def toIter : Json → Except String (List Json)
  | .arr xs => .ok xs
  | .str s => .ok (s.toList.map fun c => Json.str (String.singleton c))
  | .obj kvs => .ok (kvs.map fun kv => Json.str kv.1)
  | _ => .error "TypeError: not iterable"

/-- Python data.get(key, default) for dicts; any non-dict value has no
get attribute. -/
def dictGet (data : Json) (key : String) (dflt : Json) : Except String Json :=
  match data with
  | .obj kvs =>
    match kvs.lookup key with
    | some v => .ok v
    | none => .ok dflt
  | _ => .error "AttributeError: no attribute get"

/-- The generator expression any(link.get("rel") == "next" for link in links),
evaluated left to right with Python short-circuiting. -/
def anyRelNext : List Json → Except String Bool
  | [] => .ok false
  | l :: ls => do
    let r ← dictGet l "rel" Json.null
    if r == Json.str "next" then .ok true else anyRelNext ls

/-- The next-page test used by every paginated loop in the sources:
any(link.get("rel") == "next" for link in data.get("links", [])). -/
def hasNextLink (data : Json) : Except String Bool := do
  let links ← dictGet data "links" (Json.arr [])
  let xs ← toIter links
  anyRelNext xs

end Json

namespace Cleanup

/-- One page request, abstracting make_atlas_api_request of
cleanup_aged_projects_and_clusters.py: the function returns the parsed
JSON body on success and None on any error, so a server is a map from
page number to Option Json. -/
def Server : Type := Nat → Option Json

/-- The body of the while True loop of get_all_paginated_items
(cleanup_aged_projects_and_clusters.py, lines 155-182), one constructor
per source line:
  data = make_atlas_api_request(...); if data is None: break;
  if not data or item_key not in data or not data[item_key]: break;
  all_items.extend(data[item_key]);
  if not any(link.get("rel") == "next" for link in data.get("links", [])): break;
  current_page += 1; if current_page > max_pages: break.
The loop increments current_page every iteration starting from 1 and
breaks as soon as current_page exceeds max_pages, so it performs at most
max(max_pages, 1) iterations; the fuel parameter only bounds the
recursion and the zero-fuel clause is unreachable from the entry point
below (theorem claim_C7_amended additionally proves fuel-independence). -/
def gapLoop (server : Nat → Option Json) (key : String) (max_pages : Nat) :
    Nat → Nat → List Json → Except String (List Json)
  | 0, _, acc => .ok acc
  | fuel + 1, current_page, acc =>
    match server current_page with
    | none => .ok acc
    | some data =>
      if !data.truthy then .ok acc
      else
        match data.containsKey key with
        | .error e => .error e
        | .ok false => .ok acc
        | .ok true =>
          match data.index key with
          | .error e => .error e
          | .ok v =>
            if !v.truthy then .ok acc
            else
              match v.toIter with
              | .error e => .error e
              | .ok items =>
                match data.hasNextLink with
                | .error e => .error e
                | .ok false => .ok (acc ++ items)
                | .ok true =>
                  if current_page + 1 > max_pages then .ok (acc ++ items)
                  else
                    gapLoop server key max_pages fuel (current_page + 1) (acc ++ items)

/-- get_all_paginated_items(url, auth, item_key="results", max_pages=100)
from cleanup_aged_projects_and_clusters.py.  The url / auth pair is
abstracted into the server function; all_items starts empty and
current_page starts at 1. -/
def get_all_paginated_items (server : Nat → Option Json) (key : String)
    (max_pages : Nat) : Except String (List Json) :=
  gapLoop server key max_pages (max_pages + 1) 1 []

/-- An Atlas pagination envelope page: results plus a links array that
carries a rel=next entry exactly when next is true. -/
def envelopePage (items : List Json) (next : Bool) : Json :=
  .obj [("results", .arr items),
        ("links", if next then .arr [.obj [("rel", .str "next")]] else .arr [])]

/-- A well-formed P-page server: pages 1..P answer with an envelope whose
results are items p, advertising a next link on every page but the last;
any other page number fails. -/
def pagesServer (items : Nat → List Json) (P : Nat) : Nat → Option Json :=
  fun p => if 1 ≤ p ∧ p ≤ P then some (envelopePage (items p) (decide (p < P))) else none

end Cleanup

/-- Python str.lower(), character by character.  The scripts lowercase
email addresses, which are ASCII, where the Char.toLower case map agrees
with Python. -/
def pyLower (s : String) : String := String.mk (s.toList.map Char.toLower)

namespace Invite

/-- An HTTP response from requests, projected to the fields that
invite_users_to_organization.py reads: the status code, the Retry-After
header (already through int(...), which the script applies), and the
parsed JSON body.  The body is carried but never inspected by this
script's classification logic, exactly as in the source. -/
structure Response where
  status : Nat
  retryAfter : Option Nat
  body : Json

/-- The outcome of one requests.request call inside
make_atlas_api_request: either a response object, or a raised
requests.exceptions.RequestException (HTTPError included) carrying an
optional attached response. -/
inductive AttemptOutcome where
  | resp (r : Response)
  | exn (attached : Option Response)

/-- The observable run of make_atlas_api_request: the time.sleep
durations in order, the number of attempts issued, and the value
returned to the caller (a response, or None for failure). -/
structure ReqRun where
  sleeps : List Nat
  attempts : Nat
  result : Option Response

/-- max_retries = 3 (invite_users_to_organization.py, line 145). -/
def max_retries : Nat := 3

/-- backoff_delays = [1, 2, 4], exponential backoff in seconds. -/
def backoff_delays : List Nat := [1, 2, 4]

/-- The for attempt in range(max_retries + 1) loop of
make_atlas_api_request (invite_users_to_organization.py, lines
148-224).  fuel is the number of loop iterations still allowed
(max_retries + 1 - attempt); the zero-fuel clause is exactly the
implicit return None after the loop (line 224), which is in fact
unreachable because every final-attempt branch returns.  The getD index
into backoff_delays is only reached under attempt < max_retries = 3, so
it models backoff_delays[attempt] without an IndexError case. -/
def makeRequestGo (server : Nat → AttemptOutcome) :
    Nat → Nat → List Nat → Nat → ReqRun
  | 0, _, sleeps, attempts => ⟨sleeps, attempts, none⟩
  | fuel + 1, attempt, sleeps, attempts =>
    match server attempt with
    | .resp r =>
      if r.status = 409 then
        -- 409 Conflict is returned to the caller, before raise_for_status
        ⟨sleeps, attempts + 1, some r⟩
      else if r.status = 429 then
        if attempt < max_retries then
          -- a Retry-After header wins over the exponential backoff schedule
          let wait :=
            match r.retryAfter with
            | some w => w
            | none => backoff_delays.getD attempt 0
          makeRequestGo server fuel (attempt + 1) (sleeps ++ [wait]) (attempts + 1)
        else ⟨sleeps, attempts + 1, none⟩
      else if 400 ≤ r.status then
        -- raise_for_status raises HTTPError; the handler sees neither 409
        -- nor 429 here, logs, and returns None
        ⟨sleeps, attempts + 1, none⟩
      else
        -- 2xx (and any sub-400 status): raise_for_status passes, return response
        ⟨sleeps, attempts + 1, some r⟩
    | .exn attached =>
      match attached with
      | some er =>
        if er.status = 409 then ⟨sleeps, attempts + 1, some er⟩
        else if er.status = 429 then
          if attempt < max_retries then
            -- the exception path always uses the backoff schedule
            makeRequestGo server fuel (attempt + 1)
              (sleeps ++ [backoff_delays.getD attempt 0]) (attempts + 1)
          else ⟨sleeps, attempts + 1, none⟩
        else ⟨sleeps, attempts + 1, none⟩
      | none => ⟨sleeps, attempts + 1, none⟩

/-- make_atlas_api_request(method, url, **kwargs) with the HTTP layer
abstracted into a map from attempt number to outcome. -/
def make_atlas_api_request (server : Nat → AttemptOutcome) : ReqRun :=
  makeRequestGo server (max_retries + 1) 0 [] 0

/-- The per-page outcome inside get_existing_org_users: a failed request
(make_atlas_api_request returned None), a body that response.json()
could not parse (ValueError, caught), or a parsed body. -/
inductive PageResp where
  | fail
  | badJson
  | ok (data : Json)

/-- Python set.add collected into a duplicate-free list; only membership
is ever observed, matching set semantics. -/
def setAdd (s : List String) (x : String) : List String :=
  if x ∈ s then s else s ++ [x]

/-- The for user in ... loop of get_existing_org_users: username =
user.get("username"); if username: existing_users.add(username.lower()).
A non-dict user raises AttributeError on .get, and a truthy non-string
username raises AttributeError on .lower, neither of which the source
catches. -/
def processUsers : List Json → List String → Except String (List String)
  | [], acc => .ok acc
  | u :: us, acc =>
    match u.dictGet "username" Json.null with
    | .error e => .error e
    | .ok uname =>
      if uname.truthy then
        match uname with
        | .str s => processUsers us (setAdd acc (pyLower s))
        | _ => .error "AttributeError: lower"
      else processUsers us acc

/-- The while page <= max_pages loop of get_existing_org_users
(invite_users_to_organization.py, lines 251-296).  page starts at 1 and
increments once per iteration, so fuel = 101 - page makes the zero-fuel
clause exactly the loop-condition exit.  A bare list body is processed
and then breaks; a dict body is processed when it has a non-empty
results field, then the links array decides whether to continue. -/
def geouGo (server : Nat → PageResp) : Nat → Nat → List String → Except String (List String)
  | 0, _, acc => .ok acc
  | fuel + 1, page, acc =>
    match server page with
    | .fail => .ok acc
    | .badJson => .ok acc
    | .ok data =>
      match data with
      | .arr users => processUsers users acc
      | _ =>
        match data.containsKey "results" with
        | .error e => .error e
        | .ok false => .ok acc
        | .ok true =>
          match data.index "results" with
          | .error e => .error e
          | .ok v =>
            if !v.truthy then .ok acc
            else
              match v.toIter with
              | .error e => .error e
              | .ok users =>
                match processUsers users acc with
                | .error e => .error e
                | .ok acc' =>
                  match data.hasNextLink with
                  | .error e => .error e
                  | .ok false => .ok acc'
                  | .ok true => geouGo server fuel (page + 1) acc'

/-- get_existing_org_users(org_id) with the per-page request abstracted
into a server; max_pages = 100 as in the source. -/
def get_existing_org_users (server : Nat → PageResp) : Except String (List String) :=
  geouGo server 100 1 []

/-- The character class [a-zA-Z0-9._%+-] of the local part. -/
def emailLocalChar (c : Char) : Bool :=
  c.isAlpha || c.isDigit || c = '.' || c = '_' || c = '%' || c = '+' || c = '-'

/-- The character class [a-zA-Z0-9.-] of the domain part. -/
def emailDomainChar (c : Char) : Bool :=
  c.isAlpha || c.isDigit || c = '.' || c = '-'

/-- Decides membership in the language of the pattern
of validate_email (invite_users_to_organization.py, line 127), namely
caret [a-zA-Z0-9._%+-]+ at-sign [a-zA-Z0-9.-]+ dot [a-zA-Z]{2,} dollar,
applied with re.match.  The dollar anchor also matches just before a
single final newline, per Python re semantics.  Since both character
classes exclude the at-sign, a match forces exactly one at-sign, and
since the top-level-domain class excludes dots, the explicit dot of the
pattern must be the last dot of the domain part; the checks below decide
exactly that decomposition. -/
def validate_email (email : String) : Bool :=
  let cs := email.toList
  let cs := if cs.getLast? = some '\n' then cs.dropLast else cs
  match cs.splitOn '@' with
  | [lp, dp] =>
    !lp.isEmpty && lp.all emailLocalChar &&
    !dp.isEmpty && dp.all emailDomainChar &&
    dp.contains '.' &&
    (let tld := (dp.reverse.takeWhile (fun c => c ≠ '.')).reverse
     let before := dp.take (dp.length - tld.length - 1)
     !before.isEmpty && decide (2 ≤ tld.length) && tld.all Char.isAlpha)
  | _ => false

/-- The counters of invite_users_to_org, plus the list of emails for
which a POST invite request was actually issued, and the returned
boolean (failed_invites == 0). -/
structure InviteReport where
  successful_invites : Nat
  failed_invites : Nat
  skipped_existing : Nat
  requested : List String
  all_ok : Bool
deriving DecidableEq

/-- The for email in emails loop of invite_users_to_org
(invite_users_to_organization.py, lines 337-384): invalid format counts
as failed; an existing user (case-insensitive) counts as successful and
as skipped without issuing a request; otherwise a POST is issued and
None counts as failed, 200/201 as successful, 409 as successful, and
anything else as failed.  The inter-request rate-limit sleep does not
affect the report and is not modelled. -/
def processEmails (existing : List String) (request : String → Option Response) :
    List String → InviteReport → InviteReport
  | [], rep => rep
  | email :: rest, rep =>
    if !validate_email email then
      processEmails existing request rest
        { rep with failed_invites := rep.failed_invites + 1 }
    else if pyLower email ∈ existing then
      processEmails existing request rest
        { rep with successful_invites := rep.successful_invites + 1,
                   skipped_existing := rep.skipped_existing + 1 }
    else
      let rep' := { rep with requested := rep.requested ++ [email] }
      match request email with
      | none =>
        processEmails existing request rest
          { rep' with failed_invites := rep'.failed_invites + 1 }
      | some r =>
        if r.status = 200 ∨ r.status = 201 then
          processEmails existing request rest
            { rep' with successful_invites := rep'.successful_invites + 1 }
        else if r.status = 409 then
          processEmails existing request rest
            { rep' with successful_invites := rep'.successful_invites + 1 }
        else
          processEmails existing request rest
            { rep' with failed_invites := rep'.failed_invites + 1 }

/-- invite_users_to_org(org_id, emails): an empty org_id returns False
immediately and an empty email list returns True, both without
fetching existing users; otherwise the existing users are fetched once
and each email is processed in order.  usersServer abstracts the page
requests of get_existing_org_users and request the per-email POST
result of make_atlas_api_request. -/
def invite_users_to_org (usersServer : Nat → PageResp)
    (request : String → Option Response) (org_id : String)
    (emails : List String) : Except String InviteReport :=
  if org_id = "" then .ok ⟨0, 0, 0, [], false⟩
  else if emails = [] then .ok ⟨0, 0, 0, [], true⟩
  else
    match get_existing_org_users usersServer with
    | .error e => .error e
    | .ok existing =>
      let rep := processEmails existing request emails ⟨0, 0, 0, [], true⟩
      .ok { rep with all_ok := rep.failed_invites == 0 }

/-- A canonical org-user object as the Atlas users endpoint returns it,
restricted to the username field the script reads. -/
def userObj (name : String) : Json := .obj [("username", .str name)]

end Invite

namespace Provision

/-- The parsed JSON body of a response, projected to the fields
AtlasAPI._make_request of provision_projects_for_users.py reads: error
and errorCode (read with raising indexing as r["error"], r["errorCode"])
and parameters (read as r["parameters"][0] inside the log call of the
already-exists branches).  A missing field models a body without that
key. -/
structure Body where
  error : Option Int
  errorCode : Option String
  params : Option (List String)

/-- An HTTP response as seen by _make_request: status code plus parsed
JSON body. -/
structure Resp where
  status : Nat
  body : Body

/-- The outcome of one attempt's HTTP call: a response whose body
parsed, a response whose body response.json() failed to parse (the
ValueError is not caught by the except clause, which only catches
RequestException), or a raised RequestException with no usable
response. -/
inductive Outcome where
  | resp (r : Resp)
  | badJson
  | exn

/-- One record appended to self.failed_requests (projected to status
code, error_code and the 1-based attempt number; status none models the
"N/A" placeholder of the exception path without a response). -/
structure FailInfo where
  status : Option Nat
  errorCode : String
  attempt : Nat
deriving DecidableEq

/-- What a _make_request call produces: the returned success flag, the
returned body when it was the parsed response (none for the
exception-path error dict), and the deltas on the request-tracking
state: increments of self.successful_requests and the records appended
to self.failed_requests.  self.total_requests always increases by
exactly one per call. -/
structure MakeReqResult where
  success : Bool
  returnedBody : Option Resp
  succIncr : Nat
  failed : List FailInfo

/-- The for attempt in range(retry + 1) loop of AtlasAPI._make_request
(provision_projects_for_users.py, lines 131-202).  fuel is the number of
remaining iterations (retry + 1 - attempt); the zero-fuel clause models
the implicit None return after a completed loop, which the caller would
crash unpacking — it is unreachable because every final attempt
returns.  Statuses are assumed to be in the standard table so that
HTTPStatus(status) does not itself raise; is_success is 200-299.  In the
non-success block, a body whose error field is missing raises KeyError
on r["error"]; when error == 409 the errorCode field is read (KeyError
when missing) and a recognized already-exists code logs
r["parameters"][0] (raising when parameters is missing or empty) and
returns (r, False) while counting the request successful.  Any other
non-success body appends a failure record and falls into
response.raise_for_status(): 4xx/5xx raise into the handler, which
sleeps and retries or, on the final attempt, appends a
REQUEST_EXCEPTION record and returns the error dict with success False;
a non-success status below 400 does not raise and is returned with
success True. -/
def makeRequestGo (server : Nat → Outcome) (retry : Nat) :
    Nat → Nat → List FailInfo → Except String MakeReqResult
  | 0, _, _ => .error "TypeError: loop exhausted, implicit None unpacked"
  | fuel + 1, attempt, fl =>
    match server attempt with
    | .badJson => .error "JSONDecodeError"
    | .exn =>
      if attempt < retry then
        makeRequestGo server retry fuel (attempt + 1) fl
      else
        .ok ⟨false, none, 0, fl ++ [⟨none, "REQUEST_EXCEPTION", attempt + 1⟩]⟩
    | .resp r =>
      if 200 ≤ r.status ∧ r.status < 300 then
        .ok ⟨true, some r, 1, fl⟩
      else
        match r.body.error with
        | none => .error "KeyError: error"
        | some err =>
          if err = 409 then
            match r.body.errorCode with
            | none => .error "KeyError: errorCode"
            | some code =>
              if code = "GROUP_ALREADY_EXISTS" ∨ code = "USER_ALREADY_EXISTS" then
                match r.body.params with
                | none => .error "KeyError: parameters"
                | some [] => .error "IndexError: parameters[0]"
                | some (_ :: _) => .ok ⟨false, some r, 1, fl⟩
              else
                let fl' := fl ++
                  [⟨some r.status, r.body.errorCode.getD "Unknown error code", attempt + 1⟩]
                if 400 ≤ r.status then
                  if attempt < retry then
                    makeRequestGo server retry fuel (attempt + 1) fl'
                  else
                    .ok ⟨false, none, 0,
                      fl' ++ [⟨some r.status, "REQUEST_EXCEPTION", attempt + 1⟩]⟩
                else .ok ⟨true, some r, 1, fl'⟩
          else
            let fl' := fl ++
              [⟨some r.status, r.body.errorCode.getD "Unknown error code", attempt + 1⟩]
            if 400 ≤ r.status then
              if attempt < retry then
                makeRequestGo server retry fuel (attempt + 1) fl'
              else
                .ok ⟨false, none, 0,
                  fl' ++ [⟨some r.status, "REQUEST_EXCEPTION", attempt + 1⟩]⟩
            else .ok ⟨true, some r, 1, fl'⟩

/-- _make_request(method, endpoint, data, retry) with the HTTP layer
abstracted into a map from attempt number to outcome. -/
def make_request (server : Nat → Outcome) (retry : Nat) : Except String MakeReqResult :=
  makeRequestGo server retry (retry + 1) 0 []

/-- An entry of the ownership map, with the fields add_project writes. -/
structure OwnEntry where
  project_id : String
  project_name : String
  created_at : String
deriving DecidableEq

/-- The in-memory self.ownership_map of AtlasOwnershipTracker
(provision_projects_for_users.py, lines 355-408): a mapping from email
to entry, modelled as a function since only lookup, update and delete
are performed.  The JSON sidecar file rewrite of _save_mapping is a side
effect outside the mapping semantics and is not modelled. -/
def OwnMap : Type := String → Option OwnEntry

/-- add_project(email, project_id, project_name): assigns the entry for
email, overwriting any previous one; now is the time.strftime timestamp
it stores. -/
def add_project (m : OwnMap) (email project_id project_name now : String) : OwnMap :=
  fun x => if x = email then some ⟨project_id, project_name, now⟩ else m x

/-- get_project_id(email): the entry's project_id field when email is in
the mapping, None otherwise. -/
def get_project_id (m : OwnMap) (email : String) : Option String :=
  match m email with
  | some e => some e.project_id
  | none => none

/-- remove_project(email): deletes the mapping and returns True when the
email is present; otherwise returns False leaving the mapping
unchanged. -/
def remove_project (m : OwnMap) (email : String) : OwnMap × Bool :=
  match m email with
  | some _ => (fun x => if x = email then none else m x, true)
  | none => (m, false)

/-- The empty ownership map (a tracker whose sidecar file does not
exist). -/
def emptyMap : OwnMap := fun _ => none

end Provision

namespace Cleanup

/-- A two-page server distributing one item as zero items on page 1
(which still advertises a next link) and one item on page 2. -/
def emptyFirstPageServer : Nat → Option Json :=
  fun p =>
    if p = 1 then some (envelopePage [] true)
    else if p = 2 then some (envelopePage [Json.str "x"] false) else none

/-- A server that answers every page with one item and a next link. -/
def alwaysNextServer : Nat → Option Json :=
  fun _ => some (envelopePage [Json.str "a"] true)

/-- A server whose only page is a bare JSON array (no envelope), holding
one project object. -/
def bareArrayServer : Nat → Option Json :=
  fun p => if p = 1 then some (Json.arr [Json.obj [("id", Json.str "p1")]]) else none

/-- A server with one good page advertising a next link, whose second
page request fails. -/
def failSecondPageServer : Nat → Option Json :=
  fun p => if p = 1 then some (envelopePage [Json.str "a"] true) else none

end Cleanup

namespace Invite

/-- The condition under which the invite loop skips an email: it passes
format validation and its lowercased form is in the existing-user set. -/
def pSkip (existing : List String) (e : String) : Bool :=
  validate_email e && decide (pyLower e ∈ existing)

/-- The condition under which the invite loop issues a POST for an
email: it passes format validation and is not in the existing-user
set. -/
def pReq (existing : List String) (e : String) : Bool :=
  validate_email e && !(decide (pyLower e ∈ existing))

/-- The condition under which an issued POST is counted successful:
the requester returned a response with status 200, 201 or 409. -/
def okStatus (request : String → Option Response) (e : String) : Bool :=
  match request e with
  | none => false
  | some r => decide (r.status = 200) || decide (r.status = 201) || decide (r.status = 409)

end Invite

/-- The BEq instance on Json values reduces to beq. -/
@[simp] lemma Json.beq_def (a b : Json) : (a == b) = Json.beq a b := rfl

namespace Cleanup

/-- A failed page request stops the loop, returning the accumulator. -/
lemma gapLoop_none {server : Nat → Option Json} {key : String} {mp f c : Nat}
    {acc : List Json} (hs : server c = none) :
    gapLoop server key mp (f + 1) c acc = .ok acc := by
  simp [gapLoop, hs]

/-- Evaluating one loop iteration on a well-formed non-empty envelope page:
the items are appended, then the loop either stops (no next link), stops at
the page ceiling, or proceeds to the next page. -/
lemma gapLoop_envelope {server : Nat → Option Json} {mp f c : Nat}
    {acc its : List Json} {b : Bool}
    (hs : server c = some (envelopePage its b)) (hne : its ≠ []) :
    gapLoop server "results" mp (f + 1) c acc =
      if b then
        (if c + 1 > mp then Except.ok (acc ++ its)
         else gapLoop server "results" mp f (c + 1) (acc ++ its))
      else Except.ok (acc ++ its) := by
  cases b <;>
    simp [gapLoop, hs, envelopePage, Json.truthy, Json.containsKey, Json.index,
      Json.toIter, Json.hasNextLink, Json.dictGet, Json.anyRelNext, Json.beq,
      List.lookup, hne, Bind.bind, Except.bind]

/-- Running the loop across n consecutive well-formed pages that all
advertise a next link appends those pages' items in page order and
advances the page counter by n. -/
lemma gapLoop_iterate (server : Nat → Option Json) (mp : Nat)
    (items : Nat → List Json) :
    ∀ (n : Nat) (f c : Nat) (acc : List Json),
      (∀ i, i < n →
        server (c + i) = some (envelopePage (items (c + i)) true) ∧ items (c + i) ≠ []) →
      c + n ≤ mp →
      gapLoop server "results" mp (f + n) c acc
        = gapLoop server "results" mp f (c + n)
            (acc ++ ((List.range' c n).map items).flatten) := by
  intro n
  induction n with
  | zero => intro f c acc _ _; simp
  | succ n ih =>
    intro f c acc h hle
    have h0 := h 0 (Nat.succ_pos n)
    simp only [Nat.add_zero] at h0
    have hstep := @gapLoop_envelope server mp (f + n) c acc (items c) true h0.1 h0.2
    have hc1 : ¬ (c + 1 > mp) := by omega
    rw [show f + (n + 1) = (f + n) + 1 from rfl, hstep, if_pos rfl, if_neg hc1]
    have hshift : ∀ i, i < n →
        server (c + 1 + i) = some (envelopePage (items (c + 1 + i)) true) ∧
          items (c + 1 + i) ≠ [] := by
      intro i hi
      have := h (i + 1) (by omega)
      simpa [show c + (i + 1) = c + 1 + i by omega] using this
    rw [ih f (c + 1) (acc ++ items c) hshift (by omega)]
    have harith : c + 1 + n = c + (n + 1) := by omega
    rw [harith, List.range'_succ]
    simp

/-- Against a server that advertises a next link on every page, the loop
starting at any page c ≤ max(K,1) with enough fuel collects exactly
pages c .. max(K,1) and stops at the page ceiling. -/
lemma gapLoop_always_next (server : Nat → Option Json) (items : Nat → List Json)
    (K : Nat)
    (h : ∀ p, 1 ≤ p → server p = some (envelopePage (items p) true) ∧ items p ≠ []) :
    ∀ f c acc, 1 ≤ c → c ≤ max K 1 → K + 2 - c ≤ f →
      gapLoop server "results" K f c acc
        = .ok (acc ++ ((List.range' c (max K 1 + 1 - c)).map items).flatten) := by
  intro f
  induction f with
  | zero => intro c acc h1 h2 h3; omega
  | succ f ih =>
    intro c acc h1 h2 h3
    obtain ⟨hs, hne⟩ := h c h1
    rw [gapLoop_envelope hs hne, if_pos rfl]
    by_cases hc : c + 1 > K
    · rw [if_pos hc]
      have hm : max K 1 + 1 - c = 1 := by omega
      rw [hm]
      simp
    · rw [if_neg hc]
      rw [ih (c + 1) (acc ++ items c) (by omega) (by omega) (by omega)]
      have hm : max K 1 + 1 - c = (max K 1 + 1 - (c + 1)) + 1 := by omega
      rw [hm, List.range'_succ]
      simp

end Cleanup

/-- Claim C1, counterexample: a multi-page response with N = 1 item split
across P = 2 pages as [0 items, 1 item] — page 1 is an empty envelope
that advertises a next link, page 2 carries the item.  The claim demands
that get_all_paginated_items return exactly the 1 item, but the loop
breaks on the empty results field of page 1 and returns no items at
all. -/
theorem claim_C1_counterexample :
    Cleanup.get_all_paginated_items Cleanup.emptyFirstPageServer "results" 100
        = .ok []
      ∧ Cleanup.get_all_paginated_items Cleanup.emptyFirstPageServer "results" 100
        ≠ .ok [Json.str "x"] := by
  refine ⟨rfl, fun h => ?_⟩
  have h2 : (Except.ok ([] : List Json) : Except String (List Json))
      = .ok [Json.str "x"] := h
  simp at h2

/-- Claim C1, amended: for every multi-page response with N total items
split across P pages (1 ≤ P), PROVIDED every page's item list is
non-empty and P does not exceed the max_pages ceiling, the paginated
fetch returns exactly the N items, in page order then in-page order.
(The unamended claim fails when a non-final page is empty — the fetch
stops there and drops the remaining pages — or when P exceeds
max_pages.) -/
theorem claim_C1_amended (items : Nat → List Json) (P mp : Nat)
    (hP : 1 ≤ P) (hmp : P ≤ mp)
    (hne : ∀ p, 1 ≤ p → p ≤ P → items p ≠ []) :
    Cleanup.get_all_paginated_items (Cleanup.pagesServer items P) "results" mp
      = .ok ((List.range' 1 P).map items).flatten := by
  have hsrv : ∀ i, i < P - 1 →
      Cleanup.pagesServer items P (1 + i)
          = some (Cleanup.envelopePage (items (1 + i)) true) ∧
        items (1 + i) ≠ [] := by
    intro i hi
    refine ⟨?_, hne (1 + i) (by omega) (by omega)⟩
    unfold Cleanup.pagesServer
    rw [if_pos ⟨by omega, by omega⟩, decide_eq_true (by omega : 1 + i < P)]
  rw [Cleanup.get_all_paginated_items,
    show mp + 1 = (mp + 2 - P) + (P - 1) by omega,
    Cleanup.gapLoop_iterate (Cleanup.pagesServer items P) mp items (P - 1)
      (mp + 2 - P) 1 [] hsrv (by omega),
    show 1 + (P - 1) = P by omega]
  obtain ⟨f', hf'⟩ : ∃ f', mp + 2 - P = f' + 1 := ⟨mp + 1 - P, by omega⟩
  rw [hf']
  have hlast : Cleanup.pagesServer items P P
      = some (Cleanup.envelopePage (items P) false) := by
    unfold Cleanup.pagesServer
    rw [if_pos ⟨by omega, le_refl P⟩]
    simp
  rw [Cleanup.gapLoop_envelope hlast (hne P hP (le_refl P)), if_neg (by simp)]
  have hr : List.range' 1 P = List.range' 1 (P - 1) ++ [1 + (P - 1)] := by
    conv_lhs => rw [show P = (P - 1) + 1 by omega]
    exact List.range'_1_concat 1 (P - 1)
  rw [hr, show 1 + (P - 1) = P by omega]
  simp

/-- Claim C1 amended, witness: two pages of one item each are fetched as
exactly those two items, in page order. -/
theorem claim_C1_amended_witness :
    Cleanup.get_all_paginated_items
        (Cleanup.pagesServer (fun p => [Json.num p]) 2) "results" 100
      = .ok [Json.num 1, Json.num 2] := by
  rw [claim_C1_amended (fun p => [Json.num p]) 2 100 (by omega) (by omega)
      (fun p _ _ => by simp)]
  rfl

/-- Claim C7, counterexample: with page-count ceiling K = 0 and a server
that advertises a next link on every page (one item per page), the claim
demands at most 0 pages worth of items, but the loop always fetches page
1 before checking the ceiling and returns one page worth. -/
theorem claim_C7_counterexample :
    Cleanup.get_all_paginated_items Cleanup.alwaysNextServer "results" 0
      = .ok [Json.str "a"] := rfl

/-- Claim C7, amended: for every page-count ceiling K and every server
that reports a next link on every page, the paginated fetch terminates —
its result does not depend on the recursion bound once that bound covers
the source loop's own ceiling-driven exit — after fetching exactly the
first max(K,1) pages' items (so at most K pages worth whenever K ≥ 1;
the loop always fetches page 1 before checking the ceiling). -/
theorem claim_C7_amended (server : Nat → Option Json) (items : Nat → List Json)
    (K : Nat)
    (h : ∀ p, 1 ≤ p →
      server p = some (Cleanup.envelopePage (items p) true) ∧ items p ≠ []) :
    (∀ fuel, K + 1 ≤ fuel →
        Cleanup.gapLoop server "results" K fuel 1 []
          = Cleanup.get_all_paginated_items server "results" K)
    ∧ Cleanup.get_all_paginated_items server "results" K
        = .ok ((List.range' 1 (max K 1)).map items).flatten := by
  have hmain : ∀ f, K + 1 ≤ f →
      Cleanup.gapLoop server "results" K f 1 []
        = .ok ((List.range' 1 (max K 1)).map items).flatten := by
    intro f hf
    have := Cleanup.gapLoop_always_next server items K h f 1 []
      (le_refl 1) (le_max_right K 1) (by omega)
    simpa using this
  have hentry : Cleanup.get_all_paginated_items server "results" K
      = .ok ((List.range' 1 (max K 1)).map items).flatten :=
    hmain (K + 1) (le_refl (K + 1))
  exact ⟨fun fuel hfuel => (hmain fuel hfuel).trans hentry.symm, hentry⟩

/-- Claim C7 amended, witness: ceiling K = 3 against an always-next
server with one item per page yields exactly three items, and the run is
insensitive to a larger recursion bound. -/
theorem claim_C7_amended_witness :
    Cleanup.get_all_paginated_items Cleanup.alwaysNextServer "results" 3
        = .ok [Json.str "a", Json.str "a", Json.str "a"]
      ∧ Cleanup.gapLoop Cleanup.alwaysNextServer "results" 3 50 1 []
        = Cleanup.get_all_paginated_items Cleanup.alwaysNextServer "results" 3 := by
  have H := claim_C7_amended Cleanup.alwaysNextServer (fun _ => [Json.str "a"]) 3
    (fun p _ => ⟨rfl, by simp⟩)
  exact ⟨H.2.trans (by rfl), H.1 50 (by omega)⟩

/-- Claim C8: when the page-j request fails after pages 1..j-1 were
fetched, the paginated fetch stops and returns the items accumulated
from pages 1..j-1 as a partial result, neither raising nor discarding
them. -/
theorem claim_C8 (server : Nat → Option Json) (items : Nat → List Json)
    (j mp : Nat) (hj : 1 ≤ j) (hjm : j ≤ mp)
    (hgood : ∀ p, 1 ≤ p → p < j →
      server p = some (Cleanup.envelopePage (items p) true) ∧ items p ≠ [])
    (hfail : server j = none) :
    Cleanup.get_all_paginated_items server "results" mp
      = .ok ((List.range' 1 (j - 1)).map items).flatten := by
  have hsrv : ∀ i, i < j - 1 →
      server (1 + i) = some (Cleanup.envelopePage (items (1 + i)) true) ∧
        items (1 + i) ≠ [] := by
    intro i hi
    exact hgood (1 + i) (by omega) (by omega)
  rw [Cleanup.get_all_paginated_items,
    show mp + 1 = (mp + 2 - j) + (j - 1) by omega,
    Cleanup.gapLoop_iterate server mp items (j - 1) (mp + 2 - j) 1 [] hsrv (by omega),
    show 1 + (j - 1) = j by omega]
  obtain ⟨f', hf'⟩ : ∃ f', mp + 2 - j = f' + 1 := ⟨mp + 1 - j, by omega⟩
  rw [hf', Cleanup.gapLoop_none hfail]
  simp

/-- Claim C8, witness: one good page then a failing page-2 request
returns exactly page 1's item. -/
theorem claim_C8_witness :
    Cleanup.get_all_paginated_items Cleanup.failSecondPageServer "results" 100
      = .ok [Json.str "a"] := by
  rw [claim_C8 Cleanup.failSecondPageServer (fun _ => [Json.str "a"]) 2 100
    (by omega) (by omega)
    (fun p h1 h2 => by
      have : p = 1 := by omega
      subst this
      exact ⟨rfl, by simp⟩)
    rfl]
  rfl

namespace Invite

/-- Processing a canonical list of user objects adds each non-empty
username, lowercased, to the set. -/
lemma processUsers_canonical (names : List String)
    (hnames : ∀ n ∈ names, n ≠ "") :
    ∀ acc, processUsers (names.map userObj) acc
      = .ok (names.foldl (fun a n => setAdd a (pyLower n)) acc) := by
  induction names with
  | nil => intro acc; simp [processUsers]
  | cons n ns ih =>
    intro acc
    have hn : n ≠ "" := hnames n (List.mem_cons_self n ns)
    have hns : ∀ m ∈ ns, m ≠ "" := fun m hm => hnames m (List.mem_cons_of_mem n hm)
    simp only [List.map_cons, List.foldl_cons, processUsers, userObj, Json.dictGet,
      List.lookup, BEq.beq, decide_True, Json.truthy, String.reduceBEq]
    simp only [show (n != "") = true by simp [hn], if_true]
    exact ih hns (setAdd acc (pyLower n))

end Invite

/-- Claim C4, counterexample: a page whose payload is a bare JSON array
holding one project object.  The claim demands that the paginated fetch
treat it as the final and only page and append its items, but
get_all_paginated_items (cleanup_aged_projects_and_clusters.py) breaks
out of the loop on the membership test "results" in data without
appending, returning no items. -/
theorem claim_C4_counterexample :
    Cleanup.get_all_paginated_items Cleanup.bareArrayServer "results" 100 = .ok []
      ∧ Cleanup.bareArrayServer 1
        = some (Json.arr [Json.obj [("id", Json.str "p1")]])
      ∧ Cleanup.get_all_paginated_items Cleanup.bareArrayServer "results" 100
        ≠ .ok [Json.obj [("id", Json.str "p1")]] := by
  refine ⟨rfl, rfl, fun h => ?_⟩
  have h2 : (Except.ok ([] : List Json) : Except String (List Json))
      = .ok [Json.obj [("id", Json.str "p1")]] := h
  simp at h2

/-- Claim C4, amended: the two paginated fetchers diverge on a bare-array
payload.  get_existing_org_users (invite_users_to_organization.py) does
treat it as the final and only page: its usernames are collected
(lowercased) and fetching stops — the result is fully determined by page
1 alone.  get_all_paginated_items (cleanup_aged_projects_and_clusters.py)
also stops on a bare-array page but discards its items, returning only
what was accumulated before (nothing when it is the first page). -/
theorem claim_C4_amended (usersServer : Nat → Invite.PageResp)
    (names : List String) (itemsServer : Nat → Option Json)
    (its : List Json) (mp : Nat)
    (husers : usersServer 1 = .ok (Json.arr (names.map Invite.userObj)))
    (hnames : ∀ n ∈ names, n ≠ "")
    (hitems : itemsServer 1 = some (Json.arr its))
    (hobj : ∀ x ∈ its, ∃ kvs, x = Json.obj kvs) :
    Invite.get_existing_org_users usersServer
        = .ok (names.foldl (fun a n => Invite.setAdd a (pyLower n)) [])
      ∧ Cleanup.get_all_paginated_items itemsServer "results" mp = .ok [] := by
  constructor
  · rw [Invite.get_existing_org_users, show (100 : Nat) = 99 + 1 from rfl]
    simp only [Invite.geouGo, husers]
    exact Invite.processUsers_canonical names hnames []
  · have hnotin : (its.any fun x => x.beq (Json.str "results")) = false := by
      rw [List.any_eq_false]
      intro x hx
      obtain ⟨kvs, rfl⟩ := hobj x hx
      simp [Json.beq]
    rw [Cleanup.get_all_paginated_items]
    obtain ⟨f', hf'⟩ : ∃ f', mp + 1 = f' + 1 := ⟨mp, rfl⟩
    rw [hf']
    by_cases hits : its = [] <;>
      simp [Cleanup.gapLoop, hitems, Json.truthy, Json.containsKey, hits, hnotin]

/-- Claim C4 amended, witness: a bare-array users page yields exactly its
lowercased username from get_existing_org_users, while the same shape
yields nothing from get_all_paginated_items. -/
theorem claim_C4_amended_witness :
    Invite.get_existing_org_users
        (fun p => if p = 1 then .ok (Json.arr [Invite.userObj "Bob@Y.Z"]) else .fail)
        = .ok ["bob@y.z"]
      ∧ Cleanup.get_all_paginated_items Cleanup.bareArrayServer "results" 100
        = .ok [] := by
  have H := claim_C4_amended
    (fun p => if p = 1 then .ok (Json.arr [Invite.userObj "Bob@Y.Z"]) else .fail)
    ["Bob@Y.Z"] Cleanup.bareArrayServer [Json.obj [("id", Json.str "p1")]] 100
    rfl
    (by intro n hn; simp at hn; subst hn; decide)
    rfl
    (by
      intro x hx
      simp at hx
      subst hx
      exact ⟨_, rfl⟩)
  exact ⟨H.1.trans (by rfl), H.2⟩

namespace Invite

/-- A 429 response on a non-final attempt makes the loop sleep once
(for the Retry-After value when present, else the schedule entry) and
retry. -/
lemma makeRequestGo_429_step (server : Nat → AttemptOutcome)
    (fuel attempt : Nat) (sleeps : List Nat) (attempts : Nat) (r : Response)
    (hs : server attempt = .resp r) (h429 : r.status = 429)
    (hlt : attempt < max_retries) :
    makeRequestGo server (fuel + 1) attempt sleeps attempts
      = makeRequestGo server fuel (attempt + 1)
          (sleeps ++ [match r.retryAfter with
                      | some w => w
                      | none => backoff_delays.getD attempt 0]) (attempts + 1) := by
  simp [makeRequestGo, hs, h429, hlt]

/-- A 429 response on the final attempt ends the loop with a None
result. -/
lemma makeRequestGo_429_last (server : Nat → AttemptOutcome)
    (fuel : Nat) (sleeps : List Nat) (attempts : Nat) (r : Response)
    (hs : server max_retries = .resp r) (h429 : r.status = 429) :
    makeRequestGo server (fuel + 1) max_retries sleeps attempts
      = ⟨sleeps, attempts + 1, none⟩ := by
  have hs' : server 3 = .resp r := hs
  simp [makeRequestGo, max_retries, hs', h429]

/-- The retry loop only ever appends to the sleep log. -/
lemma makeRequestGo_sleeps_mono (server : Nat → AttemptOutcome) :
    ∀ fuel attempt sleeps attempts, ∃ ext,
      (makeRequestGo server fuel attempt sleeps attempts).sleeps = sleeps ++ ext := by
  intro fuel
  induction fuel with
  | zero => intro a s t; exact ⟨[], by simp [makeRequestGo]⟩
  | succ fuel ih =>
    intro a s t
    simp only [makeRequestGo]
    cases hsrv : server a with
    | resp r =>
      by_cases h409 : r.status = 409
      · simp only [h409, if_pos]
        exact ⟨[], by simp⟩
      · simp only [if_neg h409]
        by_cases h429 : r.status = 429
        · simp only [h429, if_pos]
          by_cases hlt : a < max_retries
          · simp only [if_pos hlt]
            obtain ⟨ext, hext⟩ := ih (a + 1)
              (s ++ [match r.retryAfter with
                     | some w => w
                     | none => backoff_delays.getD a 0]) (t + 1)
            refine ⟨[match r.retryAfter with
                     | some w => w
                     | none => backoff_delays.getD a 0] ++ ext, ?_⟩
            rw [hext, List.append_assoc]
          · simp only [if_neg hlt]
            exact ⟨[], by simp⟩
        · simp only [if_neg h429]
          by_cases h400 : 400 ≤ r.status
          · simp only [if_pos h400]
            exact ⟨[], by simp⟩
          · simp only [if_neg h400]
            exact ⟨[], by simp⟩
    | exn attached =>
      cases attached with
      | some er =>
        by_cases h409 : er.status = 409
        · simp only [h409, if_pos]
          exact ⟨[], by simp⟩
        · simp only [if_neg h409]
          by_cases h429 : er.status = 429
          · simp only [h429, if_pos]
            by_cases hlt : a < max_retries
            · simp only [if_pos hlt]
              obtain ⟨ext, hext⟩ := ih (a + 1) (s ++ [backoff_delays.getD a 0]) (t + 1)
              refine ⟨[backoff_delays.getD a 0] ++ ext, ?_⟩
              rw [hext, List.append_assoc]
            · simp only [if_neg hlt]
              exact ⟨[], by simp⟩
          · simp only [if_neg h429]
            exact ⟨[], by simp⟩
      | none => exact ⟨[], by simp⟩

/-- An all-429 server exhausts the loop: every remaining attempt is
consumed and the result is None. -/
lemma makeRequestGo_all429 (server : Nat → AttemptOutcome)
    (h : ∀ a, ∃ r, server a = .resp r ∧ r.status = 429) :
    ∀ fuel attempt sleeps attempts, attempt + fuel = max_retries + 1 →
      (makeRequestGo server fuel attempt sleeps attempts).attempts = attempts + fuel
        ∧ (makeRequestGo server fuel attempt sleeps attempts).result = none := by
  intro fuel
  induction fuel with
  | zero => intro a s t h'; simp [makeRequestGo]
  | succ fuel ih =>
    intro a s t h'
    obtain ⟨r, hs, h429⟩ := h a
    by_cases hlt : a < max_retries
    · rw [makeRequestGo_429_step server fuel a s t r hs h429 hlt]
      obtain ⟨H1, H2⟩ := ih (a + 1) _ (t + 1) (by omega)
      exact ⟨by rw [H1]; omega, H2⟩
    · have hf : fuel = 0 := by
        simp only [max_retries] at h' hlt ⊢
        omega
      have ha : a = max_retries := by
        simp only [max_retries] at h' hlt ⊢
        omega
      subst hf
      subst ha
      rw [makeRequestGo_429_last server 0 s t r hs h429]
      exact ⟨rfl, rfl⟩

end Invite

/-- Claim C5: when the server answers 429 on every attempt and
max_retries is 3, make_atlas_api_request issues exactly 4 attempts in
total and then returns None (a terminal failure) rather than retrying
further or raising. -/
theorem claim_C5 (server : Nat → Invite.AttemptOutcome)
    (h : ∀ a, ∃ r, server a = .resp r ∧ r.status = 429) :
    (Invite.make_atlas_api_request server).attempts = 4
      ∧ (Invite.make_atlas_api_request server).result = none := by
  obtain ⟨H1, H2⟩ := Invite.makeRequestGo_all429 server h
    (Invite.max_retries + 1) 0 [] 0 (by simp)
  exact ⟨by simpa [Invite.max_retries] using H1, H2⟩

/-- Claim C5, witness: a server answering 429 on every attempt (no
Retry-After header) is retried to exactly 4 attempts and None. -/
theorem claim_C5_witness :
    (Invite.make_atlas_api_request (fun _ => .resp ⟨429, none, Json.null⟩)).attempts = 4
      ∧ (Invite.make_atlas_api_request (fun _ => .resp ⟨429, none, Json.null⟩)).result
        = none :=
  claim_C5 (fun _ => .resp ⟨429, none, Json.null⟩) (fun _ => ⟨⟨429, none, Json.null⟩, rfl, rfl⟩)

/-- Claim C6: a first-attempt 429 response carrying Retry-After 5 makes
make_atlas_api_request sleep exactly 5 seconds before the retry — the
first recorded sleep is the header value 5, not the exponential
schedule's first entry backoff_delays[0] = 1. -/
theorem claim_C6 (server : Nat → Invite.AttemptOutcome) (r : Invite.Response)
    (hs : server 0 = .resp r) (h429 : r.status = 429)
    (hra : r.retryAfter = some 5) :
    (Invite.make_atlas_api_request server).sleeps.head? = some 5
      ∧ Invite.backoff_delays.getD 0 0 = 1 := by
  refine ⟨?_, rfl⟩
  rw [Invite.make_atlas_api_request,
    Invite.makeRequestGo_429_step server Invite.max_retries 0 [] 0 r hs h429 (by decide),
    hra]
  obtain ⟨ext, hext⟩ :=
    Invite.makeRequestGo_sleeps_mono server Invite.max_retries 1 ([] ++ [5]) 1
  rw [hext]
  simp

/-- Claim C6, witness: a concrete 429-with-Retry-After-5 first response
followed by a 200 sleeps 5 first. -/
theorem claim_C6_witness :
    (Invite.make_atlas_api_request
        (fun a => if a = 0 then .resp ⟨429, some 5, Json.null⟩
                  else .resp ⟨200, none, Json.null⟩)).sleeps.head? = some 5
      ∧ Invite.backoff_delays.getD 0 0 = 1 :=
  claim_C6
    (fun a => if a = 0 then .resp ⟨429, some 5, Json.null⟩
              else .resp ⟨200, none, Json.null⟩)
    ⟨429, some 5, Json.null⟩ rfl rfl rfl

namespace Invite

/-- Every email processed by the invite loop lands in exactly one of the
successful or failed counters (a skipped email is counted successful). -/
lemma processEmails_total (existing : List String)
    (request : String → Option Response) :
    ∀ (emails : List String) (rep : InviteReport),
      (processEmails existing request emails rep).successful_invites
          + (processEmails existing request emails rep).failed_invites
        = rep.successful_invites + rep.failed_invites + emails.length := by
  intro emails
  induction emails with
  | nil => intro rep; simp [processEmails]
  | cons e rest ih =>
    intro rep
    simp only [processEmails, List.length_cons]
    cases hv : validate_email e
    · simp only [Bool.not_false, if_true]
      rw [ih]
      simp
      omega
    · simp only [Bool.not_true, Bool.false_eq_true, if_false]
      by_cases hm : pyLower e ∈ existing
      · simp only [if_pos hm]
        rw [ih]
        simp
        omega
      · simp only [if_neg hm]
        cases hreq : request e with
        | none =>
          rw [ih]
          simp
          omega
        | some r =>
          by_cases h200 : r.status = 200 ∨ r.status = 201
          · simp only [if_pos h200]
            rw [ih]
            simp
            omega
          · simp only [if_neg h200]
            by_cases h409 : r.status = 409
            · simp only [if_pos h409]
              rw [ih]
              simp
              omega
            · simp only [if_neg h409]
              rw [ih]
              simp
              omega

/-- Characterization of one invite batch: the requests issued are exactly
the valid non-existing emails in order, the skipped count is the number
of valid existing emails, and the successful count is the skipped count
plus the number of issued requests answered 200/201/409. -/
lemma processEmails_spec (existing : List String)
    (request : String → Option Response) :
    ∀ (emails : List String) (rep : InviteReport),
      (processEmails existing request emails rep).requested
          = rep.requested ++ emails.filter (pReq existing)
      ∧ (processEmails existing request emails rep).skipped_existing
          = rep.skipped_existing + (emails.filter (pSkip existing)).length
      ∧ (processEmails existing request emails rep).successful_invites
          = rep.successful_invites + (emails.filter (pSkip existing)).length
            + ((emails.filter (pReq existing)).filter (okStatus request)).length := by
  intro emails
  induction emails with
  | nil => intro rep; simp [processEmails]
  | cons e rest ih =>
    intro rep
    simp only [processEmails]
    cases hv : validate_email e
    · have hps : pSkip existing e = false := by simp [pSkip, hv]
      have hpr : pReq existing e = false := by simp [pReq, hv]
      simp only [Bool.not_false, if_true]
      obtain ⟨H1, H2, H3⟩ := ih { rep with failed_invites := rep.failed_invites + 1 }
      refine ⟨?_, ?_, ?_⟩ <;>
        simp [H1, H2, H3, List.filter_cons, hps, hpr]
    · simp only [Bool.not_true, Bool.false_eq_true, if_false]
      by_cases hm : pyLower e ∈ existing
      · have hps : pSkip existing e = true := by simp [pSkip, hv, hm]
        have hpr : pReq existing e = false := by simp [pReq, hv, hm]
        simp only [if_pos hm]
        obtain ⟨H1, H2, H3⟩ := ih
          { rep with successful_invites := rep.successful_invites + 1,
                     skipped_existing := rep.skipped_existing + 1 }
        refine ⟨?_, ?_, ?_⟩ <;>
          simp [H1, H2, H3, List.filter_cons, hps, hpr] <;> omega
      · have hps : pSkip existing e = false := by simp [pSkip, hv, hm]
        have hpr : pReq existing e = true := by simp [pReq, hv, hm]
        simp only [if_neg hm]
        cases hreq : request e with
        | none =>
          have hok : okStatus request e = false := by simp [okStatus, hreq]
          obtain ⟨H1, H2, H3⟩ := ih
            { rep with requested := rep.requested ++ [e],
                       failed_invites := rep.failed_invites + 1 }
          refine ⟨?_, ?_, ?_⟩ <;>
            simp [H1, H2, H3, List.filter_cons, hps, hpr, hok]
        | some r =>
          by_cases h200 : r.status = 200 ∨ r.status = 201
          · have hok : okStatus request e = true := by
              rcases h200 with h | h <;> simp [okStatus, hreq, h]
            simp only [if_pos h200]
            obtain ⟨H1, H2, H3⟩ := ih
              { rep with requested := rep.requested ++ [e],
                         successful_invites := rep.successful_invites + 1 }
            refine ⟨?_, ?_, ?_⟩ <;>
              (simp [H1, H2, H3, List.filter_cons, hps, hpr, hok]; try omega)
          · simp only [if_neg h200]
            by_cases h409 : r.status = 409
            · have hok : okStatus request e = true := by simp [okStatus, hreq, h409]
              simp only [if_pos h409]
              obtain ⟨H1, H2, H3⟩ := ih
                { rep with requested := rep.requested ++ [e],
                           successful_invites := rep.successful_invites + 1 }
              refine ⟨?_, ?_, ?_⟩ <;>
                (simp [H1, H2, H3, List.filter_cons, hps, hpr, hok]; try omega)
            · have hok : okStatus request e = false := by
                obtain ⟨ha, hb⟩ := not_or.mp h200
                simp [okStatus, hreq, ha, hb, h409]
              simp only [if_neg h409]
              obtain ⟨H1, H2, H3⟩ := ih
                { rep with requested := rep.requested ++ [e],
                           failed_invites := rep.failed_invites + 1 }
              refine ⟨?_, ?_, ?_⟩ <;>
                simp [H1, H2, H3, List.filter_cons, hps, hpr, hok]

/-- A set keeps its elements when another is added. -/
lemma mem_setAdd_of_mem {s : List String} {x : String} (y : String) (h : x ∈ s) :
    x ∈ setAdd s y := by
  unfold setAdd
  by_cases hy : y ∈ s <;> simp [hy, h]

/-- A set contains an element just added. -/
lemma mem_setAdd_self (s : List String) (x : String) : x ∈ setAdd s x := by
  unfold setAdd
  by_cases h : x ∈ s <;> simp [h]

/-- Membership in the folded existing-user set: anything already in the
accumulator, or the lowercasing of any listed username, is in the
result. -/
lemma mem_foldl_setAdd (names : List String) :
    ∀ (acc : List String) (x : String),
      (x ∈ acc ∨ ∃ n ∈ names, pyLower n = x) →
      x ∈ names.foldl (fun a n => setAdd a (pyLower n)) acc := by
  induction names with
  | nil =>
    intro acc x h
    rcases h with h | ⟨n, hn, _⟩
    · exact h
    · simp at hn
  | cons n ns ih =>
    intro acc x h
    simp only [List.foldl_cons]
    apply ih
    rcases h with h | ⟨m, hm, hx⟩
    · exact Or.inl (mem_setAdd_of_mem _ h)
    · rcases List.mem_cons.mp hm with rfl | hm'
      · left
        rw [← hx]
        exact mem_setAdd_self acc (pyLower m)
      · exact Or.inr ⟨m, hm', hx⟩

/-- Fetching existing users from a single canonical bare-array page
yields exactly the lowercased usernames. -/
lemma get_existing_canonical (usersServer : Nat → PageResp) (names : List String)
    (husers : usersServer 1 = .ok (Json.arr (names.map userObj)))
    (hnames : ∀ n ∈ names, n ≠ "") :
    get_existing_org_users usersServer
      = .ok (names.foldl (fun a n => setAdd a (pyLower n)) []) := by
  rw [get_existing_org_users, show (100 : Nat) = 99 + 1 from rfl]
  simp only [geouGo, husers]
  exact processUsers_canonical names hnames []

end Invite

/-- Claim C2, counterexample: a batch of one email whose user already
exists in the organization.  The claim demands that the input item be
accounted for in exactly one of the succeeded / failed / skipped counts,
but invite_users_to_org counts a skipped-existing email BOTH as a
successful invite and in the skipped count: the run yields successful =
1, failed = 0, skipped = 1, so the three counts sum to 2 for 1 input. -/
theorem claim_C2_counterexample :
    Invite.invite_users_to_org
        (fun p => if p = 1 then .ok (Json.arr [Invite.userObj "a@b.co"]) else .fail)
        (fun _ => none) "org" ["a@b.co"]
        = .ok ⟨1, 0, 1, [], true⟩
      ∧ 1 + 0 + 1 ≠ List.length ["a@b.co"] :=
  ⟨rfl, by decide⟩

/-- Claim C2, amended: in a batch run of invite_users_to_org (with a
non-empty org id, and the existing-user fetch not crashing), every input
email is accounted for in exactly one of the successful or failed
counts — successful + failed equals the number of inputs — and the
skipped-existing count additionally double-counts skipped emails inside
the successful count.  A per-item failure never raises: the batch
completes and returns the full report, whose boolean is failed == 0. -/
theorem claim_C2_amended (usersServer : Nat → Invite.PageResp)
    (request : String → Option Invite.Response) (org_id : String)
    (emails existing : List String)
    (horg : org_id ≠ "")
    (hex : Invite.get_existing_org_users usersServer = .ok existing) :
    ∃ rep, Invite.invite_users_to_org usersServer request org_id emails = .ok rep
      ∧ rep.successful_invites + rep.failed_invites = emails.length
      ∧ rep.skipped_existing ≤ rep.successful_invites
      ∧ rep.all_ok = (rep.failed_invites == 0) := by
  by_cases hemp : emails = []
  · subst hemp
    refine ⟨⟨0, 0, 0, [], true⟩, ?_, rfl, le_refl 0, rfl⟩
    simp [Invite.invite_users_to_org, horg]
  · unfold Invite.invite_users_to_org
    rw [if_neg horg, if_neg hemp, hex]
    refine ⟨_, rfl, ?_, ?_, rfl⟩
    · have := Invite.processEmails_total existing request emails ⟨0, 0, 0, [], true⟩
      simpa using this
    · obtain ⟨_, H2, H3⟩ :=
        Invite.processEmails_spec existing request emails ⟨0, 0, 0, [], true⟩
      simp only [H2, H3]
      omega

/-- Claim C2 amended, witness: a three-email batch — one skipped
existing, one successfully invited, one failing validation — yields
successful + failed = 3 with skipped ≤ successful. -/
theorem claim_C2_amended_witness :
    ∃ rep, Invite.invite_users_to_org
        (fun p => if p = 1 then .ok (Json.arr [Invite.userObj "a@b.co"]) else .fail)
        (fun _ => some ⟨201, none, Json.null⟩) "org" ["a@b.co", "c@d.co", "bad"]
        = .ok rep
      ∧ rep.successful_invites + rep.failed_invites
          = List.length ["a@b.co", "c@d.co", "bad"]
      ∧ rep.skipped_existing ≤ rep.successful_invites
      ∧ rep.all_ok = (rep.failed_invites == 0) :=
  claim_C2_amended
    (fun p => if p = 1 then .ok (Json.arr [Invite.userObj "a@b.co"]) else .fail)
    (fun _ => some ⟨201, none, Json.null⟩) "org" ["a@b.co", "c@d.co", "bad"]
    ["a@b.co"] (by decide)
    (Invite.get_existing_canonical _ ["a@b.co"] rfl (by decide))

/-- Claim C10, counterexample: the input "bad@x" fails the email-format
validation, which runs before the existing-user check, even though its
lowercased form equals the lowercased username of an org user
("bad@x").  The claim demands it be counted successful with the skipped
count incremented, but the run counts it failed with skipped = 0. -/
theorem claim_C10_counterexample :
    Invite.invite_users_to_org
        (fun p => if p = 1 then .ok (Json.arr [Invite.userObj "bad@x"]) else .fail)
        (fun _ => none) "org" ["bad@x"]
        = .ok ⟨0, 1, 0, [], false⟩
      ∧ Invite.validate_email "bad@x" = false
      ∧ pyLower "bad@x" = pyLower "bad@x" :=
  ⟨rfl, rfl, rfl⟩

/-- Claim C10, amended: for every input email that PASSES the
email-format validation and whose lowercased form equals the lowercased
username of a user already present in the organization,
invite_users_to_org never issues an invite request for that email,
counts it as a successful invite, and increments the skipped-existing
count (the skipped count equals the number of valid existing inputs,
each also counted successful).  The unamended claim fails for inputs
that match an existing username but fail validation, which is checked
first. -/
theorem claim_C10_amended (usersServer : Nat → Invite.PageResp)
    (request : String → Option Invite.Response) (org_id : String)
    (emails names : List String) (uname email : String)
    (horg : org_id ≠ "")
    (husers : usersServer 1 = .ok (Json.arr (names.map Invite.userObj)))
    (hnames : ∀ n ∈ names, n ≠ "")
    (hu : uname ∈ names) (hlw : pyLower uname = pyLower email)
    (hval : Invite.validate_email email = true) (hmem : email ∈ emails) :
    ∃ rep, Invite.invite_users_to_org usersServer request org_id emails = .ok rep
      ∧ email ∉ rep.requested
      ∧ rep.skipped_existing
          = (emails.filter (Invite.pSkip
              (names.foldl (fun a n => Invite.setAdd a (pyLower n)) []))).length
      ∧ 1 ≤ rep.skipped_existing
      ∧ rep.skipped_existing ≤ rep.successful_invites := by
  set existing := names.foldl (fun a n => Invite.setAdd a (pyLower n)) [] with hexdef
  have hex : Invite.get_existing_org_users usersServer = .ok existing :=
    Invite.get_existing_canonical usersServer names husers hnames
  have hmemset : pyLower email ∈ existing :=
    Invite.mem_foldl_setAdd names [] (pyLower email) (Or.inr ⟨uname, hu, hlw⟩)
  have hskip : Invite.pSkip existing email = true := by
    simp [Invite.pSkip, hval, hmemset]
  have hreqf : Invite.pReq existing email = false := by
    simp [Invite.pReq, hval, hmemset]
  have hemp : emails ≠ [] := List.ne_nil_of_mem hmem
  unfold Invite.invite_users_to_org
  rw [if_neg horg, if_neg hemp, hex]
  obtain ⟨H1, H2, H3⟩ :=
    Invite.processEmails_spec existing request emails ⟨0, 0, 0, [], true⟩
  refine ⟨_, rfl, ?_, ?_, ?_, ?_⟩
  · simp only [H1]
    simp [List.mem_filter, hreqf]
  · simpa using H2
  · have : email ∈ emails.filter (Invite.pSkip existing) :=
      List.mem_filter.mpr ⟨hmem, hskip⟩
    have hpos : 0 < (emails.filter (Invite.pSkip existing)).length :=
      List.length_pos.mpr (List.ne_nil_of_mem this)
    simp only [H2]
    omega
  · simp only [H2, H3]
    omega

/-- Claim C10 amended, witness: input "a@b.co" is valid and matches the
org user "A@B.Co" case-insensitively, so no request is issued for it,
the skipped count is 1 and it is counted successful. -/
theorem claim_C10_amended_witness :
    ∃ rep, Invite.invite_users_to_org
        (fun p => if p = 1 then .ok (Json.arr [Invite.userObj "A@B.Co"]) else .fail)
        (fun _ => none) "org" ["a@b.co"]
        = .ok rep
      ∧ "a@b.co" ∉ rep.requested
      ∧ rep.skipped_existing
          = (List.filter (Invite.pSkip
              (List.foldl (fun a n => Invite.setAdd a (pyLower n)) [] ["A@B.Co"]))
              ["a@b.co"]).length
      ∧ 1 ≤ rep.skipped_existing
      ∧ rep.skipped_existing ≤ rep.successful_invites :=
  claim_C10_amended
    (fun p => if p = 1 then .ok (Json.arr [Invite.userObj "A@B.Co"]) else .fail)
    (fun _ => none) "org" ["a@b.co"] ["A@B.Co"] "A@B.Co" "a@b.co"
    (by decide) rfl (by decide) (by decide) (by decide) (by decide) (by decide)

namespace Provision

/-- A 409 response whose body carries error 409 and an unrecognized
errorCode drives the _make_request loop through its retries and ends
with success flag False, no successful-request increment, and at least
one failure record appended. -/
lemma makeRequestGo_unrecognized409 (server : Nat → Outcome) (retry : Nat)
    (r : Resp) (code : String)
    (hst : r.status = 409) (herr : r.body.error = some 409)
    (hcode : r.body.errorCode = some code)
    (hc1 : code ≠ "GROUP_ALREADY_EXISTS") (hc2 : code ≠ "USER_ALREADY_EXISTS")
    (hsrv : ∀ a, server a = .resp r) :
    ∀ fuel attempt fl, attempt + fuel = retry + 1 → attempt ≤ retry →
      ∃ extra, makeRequestGo server retry fuel attempt fl
          = .ok ⟨false, none, 0, fl ++ extra⟩ ∧ extra ≠ [] := by
  intro fuel
  induction fuel with
  | zero => intro a fl hsum hle; omega
  | succ fuel ih =>
    intro a fl hsum hle
    have hns : ¬ (200 ≤ r.status ∧ r.status < 300) := by rw [hst]; omega
    have hrec : ¬ (code = "GROUP_ALREADY_EXISTS" ∨ code = "USER_ALREADY_EXISTS") := by
      simp [hc1, hc2]
    have h400 : 400 ≤ r.status := by rw [hst]; omega
    simp only [makeRequestGo, hsrv a, if_neg hns, herr, hcode, if_pos rfl,
      if_neg hrec, if_pos h400, Option.getD_some]
    by_cases hlt : a < retry
    · simp only [if_pos hlt, ite_self]
      obtain ⟨extra, heq, hne⟩ := ih (a + 1)
        (fl ++ [⟨some r.status, code, a + 1⟩]) (by omega) (by omega)
      refine ⟨[⟨some r.status, code, a + 1⟩] ++ extra, ?_, by simp⟩
      rw [heq, List.append_assoc]
    · simp only [if_neg hlt, ite_self]
      refine ⟨[⟨some r.status, code, a + 1⟩,
        ⟨some r.status, "REQUEST_EXCEPTION", a + 1⟩], ?_, by simp⟩
      rw [List.append_assoc]
      rfl

end Provision

/-- Claim C3, counterexample: in invite_users_to_organization.py, a 409
response whose body is NOT a recognized already-exists shape (errorCode
SOMETHING_ELSE) is nevertheless treated as success-equivalent: the
request classifier (make_atlas_api_request) returns any 409 to the
caller without inspecting the body, and invite_users_to_org counts it
as a successful invite (successful = 1, failed = 0), not as a
failure. -/
theorem claim_C3_counterexample :
    Invite.invite_users_to_org
        (fun p => if p = 1 then .ok (Json.arr []) else .fail)
        (fun _ => some ⟨409, none, Json.obj [("errorCode", Json.str "SOMETHING_ELSE")]⟩)
        "org" ["a@b.co"]
        = .ok ⟨1, 0, 0, ["a@b.co"], true⟩ :=
  rfl

/-- Claim C3, amended: the body-sensitive 409 classification holds only
in provision_projects_for_users.py.  There, for a 409 response whose
JSON body carries error 409 and an errorCode that is NOT
GROUP_ALREADY_EXISTS or USER_ALREADY_EXISTS, _make_request reports a
failure: the returned success flag is False, successful_requests is not
incremented, and the request is recorded in failed_requests.  In
invite_users_to_organization.py, by contrast, every 409 is treated as
success-equivalent regardless of body (see the counterexample). -/
theorem claim_C3_amended (server : Nat → Provision.Outcome) (retry : Nat)
    (r : Provision.Resp) (code : String)
    (hst : r.status = 409) (herr : r.body.error = some 409)
    (hcode : r.body.errorCode = some code)
    (hc1 : code ≠ "GROUP_ALREADY_EXISTS") (hc2 : code ≠ "USER_ALREADY_EXISTS")
    (hsrv : ∀ a, server a = .resp r) :
    ∃ extra, Provision.make_request server retry
        = .ok ⟨false, none, 0, extra⟩ ∧ extra ≠ [] := by
  obtain ⟨extra, heq, hne⟩ :=
    Provision.makeRequestGo_unrecognized409 server retry r code hst herr hcode
      hc1 hc2 hsrv (retry + 1) 0 [] (by omega) (by omega)
  exact ⟨extra, by simpa [Provision.make_request] using heq, hne⟩

/-- Claim C3 amended, witness: a 409 with errorCode SOMETHING_ELSE on
every attempt, retry = 2, ends as a recorded failure with success flag
False and no successful-request increment. -/
theorem claim_C3_amended_witness :
    ∃ extra, Provision.make_request
        (fun _ => .resp ⟨409, ⟨some 409, some "SOMETHING_ELSE", some ["x"]⟩⟩) 2
        = .ok ⟨false, none, 0, extra⟩ ∧ extra ≠ [] :=
  claim_C3_amended
    (fun _ => .resp ⟨409, ⟨some 409, some "SOMETHING_ELSE", some ["x"]⟩⟩) 2
    ⟨409, ⟨some 409, some "SOMETHING_ELSE", some ["x"]⟩⟩ "SOMETHING_ELSE"
    rfl rfl rfl (by decide) (by decide) (fun _ => rfl)

/-- Claim C9: the ownership tracker round-trips — immediately after
add_project(email, project_id, project_name), get_project_id(email)
returns that project_id; and for any email absent from the mapping,
get_project_id returns None and remove_project returns False leaving
the mapping unchanged. -/
theorem claim_C9 (m : Provision.OwnMap)
    (email email2 project_id project_name now : String)
    (habs : m email2 = none) :
    Provision.get_project_id
        (Provision.add_project m email project_id project_name now) email
        = some project_id
      ∧ Provision.get_project_id m email2 = none
      ∧ Provision.remove_project m email2 = (m, false) := by
  refine ⟨?_, ?_, ?_⟩
  · simp [Provision.get_project_id, Provision.add_project]
  · simp [Provision.get_project_id, habs]
  · simp [Provision.remove_project, habs]

/-- Claim C9, witness: on the empty tracker, adding a project for one
email round-trips its id, and an unmapped email reads None and removes
to False with the map unchanged. -/
theorem claim_C9_witness :
    Provision.get_project_id
        (Provision.add_project Provision.emptyMap "a@b.co" "pid1" "proj-a"
          "2026-10-12 00:00:00") "a@b.co"
        = some "pid1"
      ∧ Provision.get_project_id Provision.emptyMap "x@y.co" = none
      ∧ Provision.remove_project Provision.emptyMap "x@y.co"
        = (Provision.emptyMap, false) :=
  claim_C9 Provision.emptyMap "a@b.co" "x@y.co" "pid1" "proj-a"
    "2026-10-12 00:00:00" rfl
